import Mathlib

/-!
Shallow embedding of the InnovAIte idea-generation service: the edge
function `generate-idea` (the gateway) and the page controller
`handleGenerate` of the Index page (the client).  JSON values are
modelled by an inductive type; `JSON.parse`, the code-fence stripping
and the greedy brace-block extraction of the gateway are translated as
executable functions over character lists.
-/

/-- JSON values as produced by a JavaScript `JSON.parse`.  Numbers are
kept as `mantissa * 10 ^ exp10`; float64 rounding is not modelled
(every number appearing in a claim is a small integer). -/
inductive Json where
  | null : Json
  | bool (b : Bool) : Json
  | num (mantissa : Int) (exp10 : Int) : Json
  | str (s : String) : Json
  | arr (elems : List Json) : Json
  | obj (fields : List (String × Json)) : Json

/-- Opening brace character, written by code to keep literal braces out
of string and character literals. -/
def ocb : Char := Char.ofNat 123

/-- Closing brace character. -/
def ccb : Char := Char.ofNat 125

/-- Backtick character. -/
def btick : Char := Char.ofNat 96

/-- Whitespace accepted by the JSON grammar (RFC 8259): space, tab,
line feed, carriage return. -/
def jsonWs (c : Char) : Bool :=
  c == ' ' || c == '\t' || c == '\n' || c == '\r'

/-- Skip JSON whitespace. -/
def skipWs (cs : List Char) : List Char := cs.dropWhile jsonWs

/-- Numeric value of a decimal digit character. -/
def digitVal (c : Char) : Nat := c.toNat - 48

/-- Numeric value of a hexadecimal digit character, if any. -/
def hexVal (c : Char) : Option Nat :=
  let n := c.toNat
  if 48 ≤ n ∧ n ≤ 57 then some (n - 48)
  else if 97 ≤ n ∧ n ≤ 102 then some (n - 87)
  else if 65 ≤ n ∧ n ≤ 70 then some (n - 55)
  else none

/-- Decimal value of a list of digit characters. -/
def digitsToNat (ds : List Char) : Nat :=
  ds.foldl (fun a c => a * 10 + digitVal c) 0

/-- Body of a JSON string literal (the opening quote already consumed):
ordinary characters, the escape sequences of RFC 8259, and rejection of
raw control characters, exactly as `JSON.parse` does.  A `\u` escape
denoting a lone surrogate is mapped to the null character (JavaScript
would keep the lone UTF-16 unit; no claim exercises this). -/
def parseStrAux (acc : List Char) : List Char → Option (String × List Char)
  | [] => none
  | c :: rest =>
    if c = '\"' then some (String.mk acc.reverse, rest)
    else if c = '\\' then
      match rest with
      | [] => none
      | e :: r2 =>
        if e = '\"' then parseStrAux ('\"' :: acc) r2
        else if e = '\\' then parseStrAux ('\\' :: acc) r2
        else if e = '/' then parseStrAux ('/' :: acc) r2
        else if e = 'b' then parseStrAux (Char.ofNat 8 :: acc) r2
        else if e = 'f' then parseStrAux (Char.ofNat 12 :: acc) r2
        else if e = 'n' then parseStrAux ('\n' :: acc) r2
        else if e = 'r' then parseStrAux ('\r' :: acc) r2
        else if e = 't' then parseStrAux ('\t' :: acc) r2
        else if e = 'u' then
          match r2 with
          | h1 :: h2 :: h3 :: h4 :: r3 =>
            match hexVal h1, hexVal h2, hexVal h3, hexVal h4 with
            | some a, some b, some c2, some d =>
                parseStrAux (Char.ofNat (a * 4096 + b * 256 + c2 * 16 + d) :: acc) r3
            | _, _, _, _ => none
          | _ => none
        else none
    else if c.toNat < 32 then none
    else parseStrAux (c :: acc) rest

/-- JSON number literal: optional minus, integer part (`0` or a nonzero
leading digit), optional fraction, optional exponent — the grammar of
RFC 8259, as enforced by `JSON.parse`. -/
def parseNum (cs : List Char) : Option (Json × List Char) :=
  let signSplit : Bool × List Char :=
    match cs with
    | c :: r => if c = '-' then (true, r) else (false, cs)
    | [] => (false, [])
  let neg := signSplit.1
  match signSplit.2 with
  | [] => none
  | c :: r =>
    if c.isDigit then
      let intSplit : List Char × List Char :=
        if c = '0' then ([c], r)
        else (c :: r.takeWhile Char.isDigit, r.dropWhile Char.isDigit)
      let ip := intSplit.1
      let fracRes : Option (List Char × List Char) :=
        match intSplit.2 with
        | d :: r2 =>
          if d = '.' then
            let f := r2.takeWhile Char.isDigit
            if f.isEmpty then none else some (f, r2.dropWhile Char.isDigit)
          else some ([], intSplit.2)
        | [] => some ([], [])
      match fracRes with
      | none => none
      | some (fp, r3) =>
        let expRes : Option (Int × List Char) :=
          match r3 with
          | e :: r4 =>
            if e = 'e' ∨ e = 'E' then
              let sgnSplit : Int × List Char :=
                match r4 with
                | s :: r5 =>
                  if s = '+' then (1, r5)
                  else if s = '-' then (-1, r5)
                  else (1, r4)
                | [] => (1, [])
              let ds := sgnSplit.2.takeWhile Char.isDigit
              if ds.isEmpty then none
              else some (sgnSplit.1 * (digitsToNat ds : Int),
                         sgnSplit.2.dropWhile Char.isDigit)
            else some (0, r3)
          | [] => some (0, [])
        match expRes with
        | none => none
        | some (ex, r6) =>
          let mant : Int := (digitsToNat (ip ++ fp) : Int)
          some (Json.num (if neg then -mant else mant) (ex - (fp.length : Int)), r6)
    else none

/-- Insert a key into an object's field list with JavaScript object
semantics: a repeated key keeps its first position but takes the last
value. -/
def setField : List (String × Json) → String → Json → List (String × Json)
  | [], k, v => [(k, v)]
  | (k0, v0) :: rest, k, v =>
    if k0 = k then (k, v) :: rest else (k0, v0) :: setField rest k v

/-- Collapse the parsed member list of an object literal with
`setField`, so duplicate keys behave as in JavaScript. -/
def dedupFields (l : List (String × Json)) : List (String × Json) :=
  l.foldl (fun a kv => setField a kv.1 kv.2) []

/-- Mode of the recursive-descent JSON parser: a single value, the
element list of an array (after `[`), or the member list of an object
(after the opening brace). -/
inductive PMode where
  | val : PMode
  | elems : PMode
  | mems : PMode

/-- Intermediate result of one parser step. -/
inductive PRes where
  | v (j : Json) : PRes
  | es (l : List Json) : PRes
  | ms (l : List (String × Json)) : PRes

/-- One fuel-indexed step of the recursive-descent parser for the grammar
of RFC 8259, the grammar `JSON.parse` accepts.  Fuel only bounds the
recursion depth; the wrapper supplies enough for any input. -/
def parseStep : Nat → PMode → List Char → Option (PRes × List Char)
  | 0, _, _ => none
  | Nat.succ n, PMode.val, cs =>
    match skipWs cs with
    | 'n' :: 'u' :: 'l' :: 'l' :: r => some (PRes.v Json.null, r)
    | 't' :: 'r' :: 'u' :: 'e' :: r => some (PRes.v (Json.bool true), r)
    | 'f' :: 'a' :: 'l' :: 's' :: 'e' :: r => some (PRes.v (Json.bool false), r)
    | '\"' :: r =>
      match parseStrAux [] r with
      | some (s, r2) => some (PRes.v (Json.str s), r2)
      | none => none
    | '[' :: r =>
      match skipWs r with
      | ']' :: r2 => some (PRes.v (Json.arr []), r2)
      | _ =>
        match parseStep n PMode.elems r with
        | some (PRes.es l, r2) => some (PRes.v (Json.arr l), r2)
        | _ => none
    | c :: r =>
      if c = ocb then
        match skipWs r with
        | [] => none
        | d :: r2 =>
          if d = ccb then some (PRes.v (Json.obj []), r2)
          else
            match parseStep n PMode.mems r with
            | some (PRes.ms l, r3) => some (PRes.v (Json.obj (dedupFields l)), r3)
            | _ => none
      else
        match parseNum (c :: r) with
        | some (j, r2) => some (PRes.v j, r2)
        | none => none
    | [] => none
  | Nat.succ n, PMode.elems, cs =>
    match parseStep n PMode.val cs with
    | some (PRes.v j, r) =>
      match skipWs r with
      | ',' :: r2 =>
        match parseStep n PMode.elems r2 with
        | some (PRes.es l, r3) => some (PRes.es (j :: l), r3)
        | _ => none
      | ']' :: r2 => some (PRes.es [j], r2)
      | _ => none
    | _ => none
  | Nat.succ n, PMode.mems, cs =>
    match skipWs cs with
    | '\"' :: r =>
      match parseStrAux [] r with
      | some (k, r2) =>
        match skipWs r2 with
        | ':' :: r3 =>
          match parseStep n PMode.val r3 with
          | some (PRes.v j, r4) =>
            match skipWs r4 with
            | ',' :: r5 =>
              match parseStep n PMode.mems r5 with
              | some (PRes.ms l, r6) => some (PRes.ms ((k, j) :: l), r6)
              | _ => none
            | d :: r5 => if d = ccb then some (PRes.ms [(k, j)], r5) else none
            | [] => none
          | _ => none
        | _ => none
      | none => none
    | _ => none

/-- Model of JavaScript `JSON.parse`: parse one value, allow trailing
whitespace, reject anything left over.  Returns `none` where
`JSON.parse` would throw. -/
def Json.parse (s : String) : Option Json :=
  let cs := s.toList
  match parseStep (2 * cs.length + 2) PMode.val cs with
  | some (PRes.v j, r) => if (skipWs r).isEmpty then some j else none
  | _ => none

/-- Remainder after three consecutive backticks, if the list starts with
them. -/
def fence3 : List Char → Option (List Char)
  | a :: b :: c :: rest =>
    if a = btick ∧ b = btick ∧ c = btick then some rest else none
  | _ => none

/-- Drop one leading line feed, if present (the `\n?` of the fence
regexes). -/
def dropNl : List Char → List Char
  | c :: r => if c = '\n' then r else c :: r
  | [] => []

/-- Match of the regex fragment at the current position for
the pattern of three backticks, `json`, then an optional newline. -/
def matchJsonFence (cs : List Char) : Option (List Char) :=
  match fence3 cs with
  | some ('j' :: 's' :: 'o' :: 'n' :: rest) => some (dropNl rest)
  | _ => none

/-- Match of a bare three-backtick fence with an optional newline. -/
def matchFence (cs : List Char) : Option (List Char) :=
  match fence3 cs with
  | some rest => some (dropNl rest)
  | none => none

/-- Global left-to-right replacement with the empty string: at each
position, delete a match of `f` and continue after it, otherwise keep
the character — the behaviour of `String.prototype.replace` with a `g`
regex and an empty replacement.  Fuel bounds the number of steps; the
callers supply the input length, which suffices because each step
consumes at least one character. -/
def stripAll (f : List Char → Option (List Char)) : Nat → List Char → List Char
  | 0, cs => cs
  | Nat.succ _, [] => []
  | Nat.succ n, c :: rest =>
    match f (c :: rest) with
    | some r => stripAll f n r
    | none => c :: stripAll f n rest

/-- Whitespace removed by JavaScript `String.prototype.trim`: the
common ASCII whitespace plus no-break space and the byte-order mark
(further Unicode space code points exist but never occur here). -/
def jsTrimWs (c : Char) : Bool :=
  c == ' ' || c == '\t' || c == '\n' || c == '\r' ||
  c == Char.ofNat 11 || c == Char.ofNat 12 || c == Char.ofNat 160 ||
  c == Char.ofNat 65279

/-- JavaScript `trim`: drop the whitespace at both ends. -/
def trimJs (cs : List Char) : List Char :=
  ((cs.dropWhile jsTrimWs).reverse.dropWhile jsTrimWs).reverse

/-- The `cleanContent` expression of the gateway: remove every
occurrence of three backticks followed by `json` and an optional
newline, then every remaining three-backtick run with an optional
newline, then trim. -/
def cleanContent (s : String) : String :=
  let cs := s.toList
  let s1 := stripAll matchJsonFence cs.length cs
  let s2 := stripAll matchFence s1.length s1
  String.mk (trimJs s2)

/-- Split a character list at its first opening brace: the prefix
before it and the suffix starting with it. -/
def splitFirstOcb : List Char → Option (List Char × List Char)
  | [] => none
  | c :: rest =>
    if c = ocb then some ([], c :: rest)
    else
      match splitFirstOcb rest with
      | some (a, b) => some (c :: a, b)
      | none => none

/-- Model of `content.match` applied to the greedy brace regex (an
opening brace, any characters, a closing brace): the substring from the
first opening brace through the last closing brace after it, or `none`
when no such pair exists. -/
def braceBlock (s : String) : Option String :=
  match splitFirstOcb s.toList with
  | none => none
  | some (_, []) => none
  | some (_, b :: rest) =>
    let upToLast := (rest.reverse.dropWhile (fun c => ¬ c = ccb)).reverse
    if upToLast.isEmpty then none else some (String.mk (b :: upToLast))

/-- Truthiness of a JSON value under JavaScript coercion: `null`,
`false`, zero and the empty string are falsy; arrays and objects are
always truthy.  (`NaN`, the remaining falsy value, cannot come out of
`JSON.parse`.) -/
def falsyJson : Json → Bool
  | Json.null => true
  | Json.bool b => !b
  | Json.num m _ => m == 0
  | Json.str s => s == ""
  | Json.arr _ => false
  | Json.obj _ => false

/-- Truthiness of a possibly absent value: an absent (`undefined`)
field is falsy. -/
def falsy : Option Json → Bool
  | none => true
  | some v => falsyJson v

/-- First (and after `dedupFields`, only) binding of a key in an
object's field list. -/
def getField : List (String × Json) → String → Option Json
  | [], _ => none
  | (k, v) :: rest, key => if k = key then some v else getField rest key

/-- Property access `j.key` on a parsed JSON value, for values on which
JavaScript would not throw: objects yield the field, every other
non-null value yields `undefined` (`none`). -/
def getProp (j : Json) (key : String) : Option Json :=
  match j with
  | Json.obj fs => getField fs key
  | _ => none

/-- Check `parsedData.ideas && Array.isArray(parsedData.ideas)` of the
gateway: the value has an `ideas` property holding an array.  (An array
is always truthy, so the truthiness conjunct adds nothing; a `null`
parse result would throw on the property access and land in the same
recovery path as a `false` check.) -/
def hasIdeasArr (j : Json) : Bool :=
  match j with
  | Json.obj fs =>
    match getField fs "ideas" with
    | some (Json.arr _) => true
    | _ => false
  | _ => false

/-- The gateway's permissive cross-origin headers. -/
def corsHeaders : List (String × String) :=
  [("Access-Control-Allow-Origin", "*"),
   ("Access-Control-Allow-Headers", "authorization, x-client-info, apikey, content-type")]

/-- Headers of every JSON-bodied gateway response: the cross-origin
headers spread first, then the content type. -/
def jsonHeaders : List (String × String) :=
  corsHeaders ++ [("Content-Type", "application/json")]

/-- An HTTP response as the gateway constructs it.  The body is kept as
the JSON value handed to `JSON.stringify` (`none` for the `null` body
of the preflight response). -/
structure HttpResponse where
  status : Nat
  headers : List (String × String)
  body : Option Json

/-- Error response of the gateway: a given status with a single
string-valued `error` property. -/
def errResp (status : Nat) (msg : String) : HttpResponse :=
  ⟨status, jsonHeaders, some (Json.obj [("error", Json.str msg)])⟩

/-- The exact message of the missing-fields validation error. -/
def missingFieldsMsg : String :=
  "Missing required fields: domain, audience, difficulty, time_available_days, mode"

/-- Message for a model reply with no brace-delimited block. -/
def noJsonMsg : String := "AI did not return valid JSON. Please try again."

/-- Message for a brace-delimited block whose parse still fails. -/
def parseFailMsg : String := "Failed to parse AI response. Please try again."

/-- The fields destructured from the request body; each is the JSON
value of the property or `none` when absent. -/
structure Fields where
  domain : Option Json
  audience : Option Json
  difficulty : Option Json
  time_available_days : Option Json
  skills : Option Json
  mode : Option Json
  constraints : Option Json
  multi_idea_count : Option Json

/-- Outcome of `req.json()`: a parse failure (whose message the
top-level catch surfaces) or the destructured fields. -/
inductive ReqBody where
  | malformed (msg : String) : ReqBody
  | fields (f : Fields) : ReqBody

/-- Outcome of the `fetch` to the completion endpoint: a thrown network
error (surfaced by the top-level catch), or a reply with a status and —
when the status is a success — the extracted
`data.choices[0].message.content` string. -/
inductive Upstream where
  | fetchError (msg : String) : Upstream
  | reply (status : Nat) (content : String) : Upstream

/-- The validation condition
`!domain || !audience || !difficulty || !time_available_days || !mode`. -/
def missingRequired (f : Fields) : Bool :=
  falsy f.domain || falsy f.audience || falsy f.difficulty ||
  falsy f.time_available_days || falsy f.mode

/-- The regex-extraction fallback of the gateway's catch block: extract
the greedy brace block from the original model text and parse it,
distinguishing the no-block error from the unparsable-block error. -/
def recover (content : String) : HttpResponse :=
  match braceBlock content with
  | some s =>
    match Json.parse s with
    | some v => ⟨200, jsonHeaders, some v⟩
    | none => errResp 500 parseFailMsg
  | none => errResp 500 noJsonMsg

/-- Response coercion of the gateway on the model text: strip fences
and parse; on success check for an `ideas` array (a failed check throws
into the same catch); on any failure fall back to `recover` on the
original text. -/
def handleContent (content : String) : HttpResponse :=
  match Json.parse (cleanContent content) with
  | some v => if hasIdeasArr v then ⟨200, jsonHeaders, some v⟩ else recover content
  | none => recover content

/-- Result of one gateway invocation: the response sent, and whether
the outbound call to the completion endpoint was issued. -/
structure GatewayRun where
  resp : HttpResponse
  modelCalled : Bool

/-- Model-call stage of the handler: the `fetch`, the `response.ok`
check mapping a non-success status to the provider-error 500 (only the
numeric status is surfaced), and on success the JSON coercion of the
reply text.  A thrown fetch reaches the top-level catch, which returns
a 500 with the error's message. -/
def gatewayCall (up : Upstream) : GatewayRun :=
  match up with
  | Upstream.fetchError msg => ⟨errResp 500 msg, true⟩
  | Upstream.reply status content =>
    if 200 ≤ status ∧ status < 300 then ⟨handleContent content, true⟩
    else ⟨errResp 500 ("OpenAI API error: " ++ toString status), true⟩

/-- Validation stage of the handler: the missing-fields 400 (before any
outbound call), else the model-call stage. -/
def gatewayFields (f : Fields) (up : Upstream) : GatewayRun :=
  if missingRequired f then ⟨errResp 400 missingFieldsMsg, false⟩
  else gatewayCall up

/-- The `serve` handler of the `generate-idea` function: preflight
short-circuit, body destructuring, and the validation / model-call
pipeline.  Uncaught exceptions (a malformed request body, a network
failure of the fetch) are mapped by the top-level catch to a 500 with
the error's message. -/
def gateway (method : String) (body : ReqBody) (up : Upstream) : GatewayRun :=
  if method = "OPTIONS" then ⟨⟨200, corsHeaders, none⟩, false⟩
  else
    match body with
    | ReqBody.malformed msg => ⟨errResp 500 msg, false⟩
    | ReqBody.fields f => gatewayFields f up

/-- A concrete request with all five required fields present and
truthy, used to exercise the post-validation pipeline. -/
def validFields : Fields :=
  { domain := some (Json.str "fitness")
    audience := some (Json.str "students")
    difficulty := some (Json.str "beginner")
    time_available_days := some (Json.num 3 0)
    skills := none
    mode := some (Json.str "hackathon")
    constraints := none
    multi_idea_count := none }

/-- Run the gateway on a plain request with the concrete valid fields
and a successful model call returning the given text. -/
def runOk (content : String) : GatewayRun :=
  gateway "POST" (ReqBody.fields validFields) (Upstream.reply 200 content)

/-- State-affecting and user-visible steps the controller performs, in
order: the two React state setters and the two toast notifications. -/
inductive CtrlAction where
  | setLoading (b : Bool) : CtrlAction
  | setIdeas (l : List Json) : CtrlAction
  | toastSuccess (msg : String) : CtrlAction
  | toastError (msg : String) : CtrlAction

/-- A toast notification shown to the user. -/
inductive Toast where
  | success (msg : String) : Toast
  | err (msg : String) : Toast

/-- Outcome of the controller's `fetch` to the gateway: a thrown
network error, or a reply with its `ok` flag and raw body text. -/
inductive FetchOutcome where
  | fetchError (msg : String) : FetchOutcome
  | response (ok : Bool) (bodyText : String) : FetchOutcome

/-- Generic client-side failure message, the fallback when the server
supplies no error string. -/
def fallbackMsg : String := "Failed to generate ideas"

/-- Message thrown when the 200 body lacks an `ideas` array. -/
def invalidFormatMsg : String := "Invalid response format"

/-- Text of the success toast, fixed regardless of how many ideas the
response actually carries. -/
def successToastMsg : String := "3 amazing ideas generated!"

/-- Stands in for the engine-specific `SyntaxError` message raised by
`response.json()` on an unparsable body; no claim depends on its
text. -/
def jsonSyntaxMsg : String := "Unexpected end of JSON input"

/-- Stands in for the `TypeError` message raised by reading a property
of a `null` parse result; no claim depends on its text. -/
def nullAccessMsg : String := "Cannot read properties of null"

/-- JavaScript string coercion of a JSON value, as `new Error(x)`
applies to a non-string argument.  Array joining is abbreviated to the
empty string; only string-valued error fields are exercised by any
claim. -/
def jsDisplay : Json → String
  | Json.str s => s
  | Json.bool b => if b then "true" else "false"
  | Json.null => "null"
  | Json.num m e =>
    if e = 0 then toString m
    else if 0 ≤ e then toString (m * 10 ^ e.toNat)
    else toString m ++ "e" ++ toString e
  | Json.arr _ => ""
  | Json.obj _ => "[object Object]"

/-- The message of `new Error(errorData.error || fallback)`: the
`error` property when truthy, else the generic fallback. -/
def errMsgOf (b : Json) : String :=
  match getProp b "error" with
  | some v => if falsyJson v then fallbackMsg else jsDisplay v
  | none => fallbackMsg

/-- Branch of `handleGenerate` between the initial state resets and the
final `finally`: the error mapping for thrown fetches and non-ok
responses, and the `ideas`-array check with its success or
invalid-format outcome. -/
def branchActions (o : FetchOutcome) : List CtrlAction :=
  match o with
  | FetchOutcome.fetchError m => [CtrlAction.toastError m]
  | FetchOutcome.response ok bodyText =>
    if ok then
      match Json.parse bodyText with
      | none => [CtrlAction.toastError jsonSyntaxMsg]
      | some Json.null => [CtrlAction.toastError nullAccessMsg]
      | some d =>
        match getProp d "ideas" with
        | some (Json.arr l) => [CtrlAction.setIdeas l, CtrlAction.toastSuccess successToastMsg]
        | _ => [CtrlAction.toastError invalidFormatMsg]
    else
      match Json.parse bodyText with
      | none => [CtrlAction.toastError jsonSyntaxMsg]
      | some Json.null => [CtrlAction.toastError nullAccessMsg]
      | some b => [CtrlAction.toastError (errMsgOf b)]

/-- The controller's `handleGenerate`: set the loading flag, clear the
previous results, run the request branch, and clear the loading flag in
the `finally`. -/
def handleGenerate (o : FetchOutcome) : List CtrlAction :=
  [CtrlAction.setLoading true, CtrlAction.setIdeas []] ++ branchActions o ++
  [CtrlAction.setLoading false]

/-- The page state the controller manages. -/
structure UiState where
  ideas : List Json
  isLoading : Bool

/-- Apply one action to the page state; toasts leave it unchanged. -/
def applyAction (st : UiState) : CtrlAction → UiState
  | CtrlAction.setLoading b => { st with isLoading := b }
  | CtrlAction.setIdeas l => { st with ideas := l }
  | CtrlAction.toastSuccess _ => st
  | CtrlAction.toastError _ => st

/-- Apply a list of actions in order. -/
def applyActions (st : UiState) (l : List CtrlAction) : UiState :=
  l.foldl applyAction st

/-- The toasts fired by a list of actions, in order. -/
def toastsOf (l : List CtrlAction) : List Toast :=
  l.filterMap fun a =>
    match a with
    | CtrlAction.toastSuccess m => some (Toast.success m)
    | CtrlAction.toastError m => some (Toast.err m)
    | _ => none

/-- Rendering guard of the results section: it appears exactly when the
results list is non-empty. -/
def showResults (st : UiState) : Bool := decide (0 < st.ideas.length)

/-- Rendering guard of the invitational empty state: not loading and no
results. -/
def showEmptyState (st : UiState) : Bool :=
  !st.isLoading && st.ideas.length == 0

/-- Check for the error shape of the response contract: an object with
a string-valued `error` property. -/
def isErrStr (j : Json) : Bool :=
  match j with
  | Json.obj fs =>
    match getField fs "error" with
    | some (Json.str _) => true
    | _ => false
  | _ => false

/-- Body shape asserted by the response contract: an object with an
`ideas` array, or an object with a string-valued `error`. -/
def claimedShape (j : Json) : Bool := hasIdeasArr j || isErrStr j

/-- Success of the gateway's direct-parse path: the fence-stripped text
parses and the result carries an `ideas` array. -/
def directOk (content : String) : Bool :=
  match Json.parse (cleanContent content) with
  | some v => hasIdeasArr v
  | none => false

/-- A model reply wrapping a well-formed object in prose, exercising
the regex-recovery path. -/
def proseReply : String :=
  "Sure! \x7b\"ideas\":[\x7b\"title\":\"T\"\x7d]\x7d Hope that helps!"

/-- The brace-delimited block inside `proseReply`. -/
def proseReplyBlock : String := "\x7b\"ideas\":[\x7b\"title\":\"T\"\x7d]\x7d"

/-- The value the regex recovery extracts from `proseReply`. -/
def proseReplyVal : Json :=
  Json.obj [("ideas", Json.arr [Json.obj [("title", Json.str "T")]])]

/-- A gateway response body with an empty `ideas` array. -/
def emptyIdeasBody : Json := Json.obj [("ideas", Json.arr [])]

/-- The serialized form of `emptyIdeasBody`, as `JSON.stringify`
produces it and as the controller's `response.json()` receives it. -/
def emptyIdeasText : String := "\x7b\"ideas\":[]\x7d"

/-- A model reply that is already a valid `ideas` object but whose
`architecture` string contains a triple-backtick run. -/
def tickReply : String :=
  "\x7b\"ideas\":[\x7b\"architecture\":\"a```b\"\x7d]\x7d"

/-- The value the model actually emitted in `tickReply`. -/
def tickReplyVal : Json :=
  Json.obj [("ideas", Json.arr [Json.obj [("architecture", Json.str "a```b")]])]

/-- The value the gateway returns for `tickReply`, with the backticks
stripped out of the string content. -/
def tickReplyStripped : Json :=
  Json.obj [("ideas", Json.arr [Json.obj [("architecture", Json.str "ab")]])]


/-- A gateway run on a plain request reduces to the validation stage. -/
theorem gateway_post_fields (f : Fields) (up : Upstream) :
    gateway "POST" (ReqBody.fields f) up = gatewayFields f up := rfl

/-- A non-preflight run on a destructured body reduces to the
validation stage. -/
theorem gateway_fields_eq (m : String) (f : Fields) (up : Upstream)
    (hm : ¬ m = "OPTIONS") :
    gateway m (ReqBody.fields f) up = gatewayFields f up := by
  simp only [gateway, if_neg hm]

/-- A non-preflight run on an unparsable body is the top-level-catch
500. -/
theorem gateway_malformed_eq (m msg : String) (up : Upstream)
    (hm : ¬ m = "OPTIONS") :
    gateway m (ReqBody.malformed msg) up = ⟨errResp 500 msg, false⟩ := by
  simp only [gateway, if_neg hm]

/-- With all required fields truthy, validation passes through to the
model-call stage. -/
theorem gatewayFields_valid (f : Fields) (up : Upstream)
    (hf : missingRequired f = false) : gatewayFields f up = gatewayCall up := by
  simp [gatewayFields, hf]

/-- With some required field falsy, validation answers the 400 without
calling the model. -/
theorem gatewayFields_invalid (f : Fields) (up : Upstream)
    (hf : missingRequired f = true) :
    gatewayFields f up = ⟨errResp 400 missingFieldsMsg, false⟩ := by
  simp [gatewayFields, hf]

/-- A successful upstream reply hands its content to the coercion
pipeline. -/
theorem gatewayCall_ok (st : Nat) (c : String) (hok : 200 ≤ st ∧ st < 300) :
    gatewayCall (Upstream.reply st c) = ⟨handleContent c, true⟩ := by
  simp only [gatewayCall, if_pos hok]

/-- A non-success upstream reply is mapped to the provider-error
500. -/
theorem gatewayCall_err (st : Nat) (c : String) (hok : ¬ (200 ≤ st ∧ st < 300)) :
    gatewayCall (Upstream.reply st c) =
      ⟨errResp 500 ("OpenAI API error: " ++ toString st), true⟩ := by
  simp only [gatewayCall, if_neg hok]

/-- The recovery fallback answers with the brace-extracted parse or one
of the two string-valued error bodies. -/
theorem recover_shape (c : String) :
    ∃ j, (recover c).body = some j ∧
      (isErrStr j = true ∨
        ((recover c).status = 200 ∧ ∃ s, braceBlock c = some s ∧ Json.parse s = some j)) := by
  cases hb : braceBlock c with
  | none =>
    have he : recover c = errResp 500 noJsonMsg := by simp only [recover, hb]
    exact ⟨Json.obj [("error", Json.str noJsonMsg)], by rw [he]; rfl, Or.inl rfl⟩
  | some s =>
    cases hs : Json.parse s with
    | none =>
      have he : recover c = errResp 500 parseFailMsg := by simp only [recover, hb, hs]
      exact ⟨Json.obj [("error", Json.str parseFailMsg)], by rw [he]; rfl, Or.inl rfl⟩
    | some v =>
      have he : recover c = ⟨200, jsonHeaders, some v⟩ := by simp only [recover, hb, hs]
      exact ⟨v, by rw [he], Or.inr ⟨by rw [he], s, rfl, hs⟩⟩

/-- The coercion pipeline with a failed direct parse falls back to the
recovery procedure. -/
theorem handleContent_parse_none (c : String)
    (hp : Json.parse (cleanContent c) = none) : handleContent c = recover c := by
  simp only [handleContent, hp]

/-- The coercion pipeline with a direct parse lacking an `ideas` array
falls back to the recovery procedure. -/
theorem handleContent_no_ideas (c : String) (v : Json)
    (hp : Json.parse (cleanContent c) = some v) (hi : hasIdeasArr v = false) :
    handleContent c = recover c := by
  simp [handleContent, hp, hi]

/-- The coercion pipeline with a successful structure check answers 200
with the parsed value. -/
theorem handleContent_ideas (c : String) (v : Json)
    (hp : Json.parse (cleanContent c) = some v) (hi : hasIdeasArr v = true) :
    handleContent c = ⟨200, jsonHeaders, some v⟩ := by
  simp [handleContent, hp, hi]

/-- The coercion pipeline answers with an `ideas` object, an error
body, or the brace-extracted parse. -/
theorem handleContent_shape (c : String) :
    ∃ j, (handleContent c).body = some j ∧
      (isErrStr j = true ∨ hasIdeasArr j = true ∨
        ((handleContent c).status = 200 ∧
          ∃ s, braceBlock c = some s ∧ Json.parse s = some j)) := by
  cases hp : Json.parse (cleanContent c) with
  | none =>
    rw [handleContent_parse_none c hp]
    obtain ⟨j, h1, h2⟩ := recover_shape c
    exact ⟨j, h1, h2.imp id Or.inr⟩
  | some v =>
    cases hi : hasIdeasArr v with
    | true =>
      rw [handleContent_ideas c v hp hi]
      exact ⟨v, rfl, Or.inr (Or.inl hi)⟩
    | false =>
      rw [handleContent_no_ideas c v hp hi]
      obtain ⟨j, h1, h2⟩ := recover_shape c
      exact ⟨j, h1, h2.imp id Or.inr⟩

/-- C1 (amended): every gateway response body is absent (preflight), an
object with a string-valued `error`, an object with an `ideas` array,
or — on the regex-recovery success path — the object parsed from the
brace-extracted block, which need not contain an `ideas` array. -/
theorem c1_shape_amended (m : String) (b : ReqBody) (u : Upstream) :
    (gateway m b u).resp.body = none ∨
    ∃ j, (gateway m b u).resp.body = some j ∧
      (isErrStr j = true ∨ hasIdeasArr j = true ∨
        ((gateway m b u).resp.status = 200 ∧
          ∃ st c s, u = Upstream.reply st c ∧
            braceBlock c = some s ∧ Json.parse s = some j)) := by
  by_cases hm : m = "OPTIONS"
  · have he : gateway m b u = ⟨⟨200, corsHeaders, none⟩, false⟩ := by
      simp [gateway, hm]
    rw [he]
    exact Or.inl rfl
  · cases b with
    | malformed msg =>
      rw [gateway_malformed_eq m msg u hm]
      exact Or.inr ⟨_, rfl, Or.inl rfl⟩
    | fields f =>
      rw [gateway_fields_eq m f u hm]
      cases hmr : missingRequired f with
      | true =>
        rw [gatewayFields_invalid f u hmr]
        exact Or.inr ⟨_, rfl, Or.inl rfl⟩
      | false =>
        rw [gatewayFields_valid f u hmr]
        cases u with
        | fetchError msg => exact Or.inr ⟨_, rfl, Or.inl rfl⟩
        | reply st c =>
          by_cases hok : 200 ≤ st ∧ st < 300
          · rw [gatewayCall_ok st c hok]
            obtain ⟨j, h1, h2⟩ := handleContent_shape c
            refine Or.inr ⟨j, h1, ?_⟩
            rcases h2 with h | h | ⟨hst, s, hb, hs⟩
            · exact Or.inl h
            · exact Or.inr (Or.inl h)
            · exact Or.inr (Or.inr ⟨hst, st, c, s, rfl, hb, hs⟩)
          · rw [gatewayCall_err st c hok]
            exact Or.inr ⟨_, rfl, Or.inl rfl⟩

/-- C1 (counterexample): a model reply whose direct parse succeeds but
lacks an `ideas` array is re-extracted by the regex fallback and
answered verbatim with HTTP 200 — a body that is neither an
`ideas`-array object nor an `error`-string object. -/
theorem c1_shape_counterexample :
    (runOk "\x7b\"ideas\": 5\x7d").resp.status = 200 ∧
    (runOk "\x7b\"ideas\": 5\x7d").resp.body =
      some (Json.obj [("ideas", Json.num 5 0)]) ∧
    claimedShape (Json.obj [("ideas", Json.num 5 0)]) = false :=
  ⟨rfl, rfl, rfl⟩

/-- C3: the code-fenced empty `ideas` object is fence-stripped and
parsed directly, and the gateway answers HTTP 200 with that object. -/
theorem c3_fenced_empty_ideas :
    cleanContent "```json\n\x7b\"ideas\":[]\x7d\n```" = emptyIdeasText ∧
    Json.parse emptyIdeasText = some emptyIdeasBody ∧
    runOk "```json\n\x7b\"ideas\":[]\x7d\n```" =
      ⟨⟨200, jsonHeaders, some emptyIdeasBody⟩, true⟩ :=
  ⟨rfl, rfl, rfl⟩

/-- The recovery fallback only answers 200 or 500. -/
theorem recover_status (c : String) :
    (recover c).status = 200 ∨ (recover c).status = 500 := by
  cases hb : braceBlock c with
  | none =>
    have he : recover c = errResp 500 noJsonMsg := by simp only [recover, hb]
    rw [he]; right; rfl
  | some s =>
    cases hs : Json.parse s with
    | none =>
      have he : recover c = errResp 500 parseFailMsg := by simp only [recover, hb, hs]
      rw [he]; right; rfl
    | some v =>
      have he : recover c = ⟨200, jsonHeaders, some v⟩ := by simp only [recover, hb, hs]
      rw [he]; left; rfl

/-- The coercion pipeline only answers 200 or 500. -/
theorem handleContent_status (c : String) :
    (handleContent c).status = 200 ∨ (handleContent c).status = 500 := by
  cases hp : Json.parse (cleanContent c) with
  | none => rw [handleContent_parse_none c hp]; exact recover_status c
  | some v =>
    cases hi : hasIdeasArr v with
    | true => rw [handleContent_ideas c v hp hi]; left; rfl
    | false => rw [handleContent_no_ideas c v hp hi]; exact recover_status c

/-- The model-call stage only answers 200 or 500. -/
theorem gatewayCall_status (up : Upstream) :
    (gatewayCall up).resp.status = 200 ∨ (gatewayCall up).resp.status = 500 := by
  cases up with
  | fetchError msg => right; rfl
  | reply st c =>
    by_cases hok : 200 ≤ st ∧ st < 300
    · rw [gatewayCall_ok st c hok]; exact handleContent_status c
    · rw [gatewayCall_err st c hok]; right; rfl

/-- C2: the gateway answers the exact missing-fields 400 precisely when
some required field is falsy, and in that case issues no outbound model
call. -/
theorem c2_missing_fields (f : Fields) (up : Upstream) :
    (missingRequired f = true ↔
      (gateway "POST" (ReqBody.fields f) up).resp = errResp 400 missingFieldsMsg) ∧
    (missingRequired f = true →
      (gateway "POST" (ReqBody.fields f) up).modelCalled = false) := by
  rw [gateway_post_fields]
  cases hmr : missingRequired f with
  | true =>
    rw [gatewayFields_invalid f up hmr]
    exact ⟨⟨fun _ => rfl, fun _ => rfl⟩, fun _ => rfl⟩
  | false =>
    rw [gatewayFields_valid f up hmr]
    refine ⟨⟨fun h => absurd h (by simp), fun h => ?_⟩, fun h => absurd h (by simp)⟩
    exfalso
    rcases gatewayCall_status up with h2 | h2 <;> rw [h] at h2 <;>
      simp [errResp] at h2

/-- C2 witness: a request with an absent `domain` gets the 400 and no
model call. -/
theorem c2_missing_fields_witness :
    (gateway "POST" (ReqBody.fields { validFields with domain := none })
        (Upstream.reply 200 "x")).resp = errResp 400 missingFieldsMsg ∧
    (gateway "POST" (ReqBody.fields { validFields with domain := none })
        (Upstream.reply 200 "x")).modelCalled = false :=
  ⟨(c2_missing_fields { validFields with domain := none }
      (Upstream.reply 200 "x")).1.mp rfl,
   (c2_missing_fields { validFields with domain := none }
      (Upstream.reply 200 "x")).2 rfl⟩

/-- A successful run with the concrete valid request reduces to the
coercion pipeline. -/
theorem runOk_eq (content : String) :
    runOk content = ⟨handleContent content, true⟩ := by
  unfold runOk
  rw [gateway_post_fields, gatewayFields_valid validFields _ rfl,
    gatewayCall_ok 200 content (by norm_num)]

/-- When the direct-parse path fails, the run reduces to the recovery
fallback on the original text. -/
theorem runOk_recover (content : String) (h : directOk content = false) :
    runOk content = ⟨recover content, true⟩ := by
  rw [runOk_eq]
  cases hp : Json.parse (cleanContent content) with
  | none => rw [handleContent_parse_none content hp]
  | some w =>
    have hw : hasIdeasArr w = false := by
      simp only [directOk, hp] at h
      exact h
    rw [handleContent_no_ideas content w hp hw]

/-- C4: when the direct parse fails and the greedy brace block of the
original text parses, the gateway answers HTTP 200 with that parsed
object, dropping the surrounding prose. -/
theorem c4_regex_recovery (content s : String) (v : Json)
    (h1 : directOk content = false)
    (h2 : braceBlock content = some s)
    (h3 : Json.parse s = some v) :
    runOk content = ⟨⟨200, jsonHeaders, some v⟩, true⟩ := by
  rw [runOk_recover content h1]
  have he : recover content = ⟨200, jsonHeaders, some v⟩ := by
    simp only [recover, h2, h3]
  rw [he]

/-- C4 witness: the prose-wrapped reply is answered with the
brace-extracted object. -/
theorem c4_regex_recovery_witness :
    runOk proseReply = ⟨⟨200, jsonHeaders, some proseReplyVal⟩, true⟩ :=
  c4_regex_recovery proseReply proseReplyBlock proseReplyVal rfl rfl rfl

/-- C5: when recovery runs, a text without any brace-delimited block
gets the no-JSON 500, and a brace block that still fails to parse gets
the parse-failure 500. -/
theorem c5_recovery_errors (content : String) (h : directOk content = false) :
    (braceBlock content = none →
      runOk content = ⟨errResp 500 noJsonMsg, true⟩) ∧
    (∀ s, braceBlock content = some s → Json.parse s = none →
      runOk content = ⟨errResp 500 parseFailMsg, true⟩) := by
  constructor
  · intro hb
    rw [runOk_recover content h]
    have he : recover content = errResp 500 noJsonMsg := by simp only [recover, hb]
    rw [he]
  · intro s hb hs
    rw [runOk_recover content h]
    have he : recover content = errResp 500 parseFailMsg := by
      simp only [recover, hb, hs]
    rw [he]

/-- C5 witness: a braceless reply gets the no-JSON message and a broken
brace block gets the parse-failure message. -/
theorem c5_recovery_errors_witness :
    runOk "no json here" = ⟨errResp 500 noJsonMsg, true⟩ ∧
    runOk "oops \x7b\"ideas\": \x7d trailing" = ⟨errResp 500 parseFailMsg, true⟩ :=
  ⟨(c5_recovery_errors "no json here" rfl).1 rfl,
   (c5_recovery_errors "oops \x7b\"ideas\": \x7d trailing" rfl).2
      "\x7b\"ideas\": \x7d" rfl rfl⟩

/-- C6: a non-success completion-endpoint status yields HTTP 500 with
an error carrying only the numeric status; the reply content never
influences the response. -/
theorem c6_upstream_error (status : Nat) (content : String)
    (h : ¬ (200 ≤ status ∧ status < 300)) :
    gateway "POST" (ReqBody.fields validFields) (Upstream.reply status content) =
      ⟨errResp 500 ("OpenAI API error: " ++ toString status), true⟩ := by
  rw [gateway_post_fields, gatewayFields_valid validFields _ rfl,
    gatewayCall_err status content h]

/-- C6 witness: a 404 from the provider becomes the status-only 500. -/
theorem c6_upstream_error_witness :
    gateway "POST" (ReqBody.fields validFields) (Upstream.reply 404 "secret provider body") =
      ⟨errResp 500 ("OpenAI API error: " ++ toString 404), true⟩ :=
  c6_upstream_error 404 "secret provider body" (by norm_num)

/-- The recovery fallback always attaches the JSON response headers. -/
theorem recover_headers (c : String) : (recover c).headers = jsonHeaders := by
  cases hb : braceBlock c with
  | none =>
    have he : recover c = errResp 500 noJsonMsg := by simp only [recover, hb]
    rw [he]; rfl
  | some s =>
    cases hs : Json.parse s with
    | none =>
      have he : recover c = errResp 500 parseFailMsg := by simp only [recover, hb, hs]
      rw [he]; rfl
    | some v =>
      have he : recover c = ⟨200, jsonHeaders, some v⟩ := by simp only [recover, hb, hs]
      rw [he]

/-- The coercion pipeline always attaches the JSON response headers. -/
theorem handleContent_headers (c : String) :
    (handleContent c).headers = jsonHeaders := by
  cases hp : Json.parse (cleanContent c) with
  | none => rw [handleContent_parse_none c hp]; exact recover_headers c
  | some v =>
    cases hi : hasIdeasArr v with
    | true => rw [handleContent_ideas c v hp hi]
    | false => rw [handleContent_no_ideas c v hp hi]; exact recover_headers c

/-- Every gateway response carries either the bare cross-origin headers
(preflight) or the cross-origin headers followed by the content
type. -/
theorem gateway_headers (m : String) (b : ReqBody) (u : Upstream) :
    (gateway m b u).resp.headers = corsHeaders ∨
    (gateway m b u).resp.headers = jsonHeaders := by
  by_cases hm : m = "OPTIONS"
  · left; simp [gateway, hm]
  · cases b with
    | malformed msg => right; rw [gateway_malformed_eq m msg u hm]; rfl
    | fields f =>
      rw [gateway_fields_eq m f u hm]
      cases hmr : missingRequired f with
      | true => right; rw [gatewayFields_invalid f u hmr]; rfl
      | false =>
        rw [gatewayFields_valid f u hmr]
        cases u with
        | fetchError msg => right; rfl
        | reply st c =>
          by_cases hok : 200 ≤ st ∧ st < 300
          · right; rw [gatewayCall_ok st c hok]; exact handleContent_headers c
          · right; rw [gatewayCall_err st c hok]; rfl

/-- C7: every response the gateway produces, the preflight
short-circuit included, carries each of the permissive cross-origin
headers. -/
theorem c7_cors_all_responses (m : String) (b : ReqBody) (u : Upstream)
    (p : String × String) (hp : p ∈ corsHeaders) :
    p ∈ (gateway m b u).resp.headers := by
  rcases gateway_headers m b u with h | h
  · rw [h]; exact hp
  · rw [h]; exact List.mem_append_left _ hp

/-- C7 witness: the preflight response carries the wildcard-origin
header. -/
theorem c7_cors_all_responses_witness :
    ("Access-Control-Allow-Origin", "*") ∈
      (gateway "OPTIONS" (ReqBody.malformed "bad body")
        (Upstream.fetchError "down")).resp.headers :=
  c7_cors_all_responses "OPTIONS" (ReqBody.malformed "bad body")
    (Upstream.fetchError "down") ("Access-Control-Allow-Origin", "*")
    (by simp [corsHeaders])

/-- The controller's request branch either fires exactly one error
toast, or stores the ideas and fires the fixed success toast. -/
theorem branch_shape (o : FetchOutcome) :
    (∃ m, branchActions o = [CtrlAction.toastError m]) ∨
    (∃ l, branchActions o =
      [CtrlAction.setIdeas l, CtrlAction.toastSuccess successToastMsg]) := by
  cases o with
  | fetchError m => exact Or.inl ⟨m, rfl⟩
  | response ok bt =>
    cases ok with
    | false =>
      cases hp : Json.parse bt with
      | none => exact Or.inl ⟨jsonSyntaxMsg, by simp [branchActions, hp]⟩
      | some b =>
        cases b with
        | null => exact Or.inl ⟨nullAccessMsg, by simp [branchActions, hp]⟩
        | bool x => exact Or.inl ⟨errMsgOf (Json.bool x), by simp [branchActions, hp]⟩
        | num a e => exact Or.inl ⟨errMsgOf (Json.num a e), by simp [branchActions, hp]⟩
        | str s => exact Or.inl ⟨errMsgOf (Json.str s), by simp [branchActions, hp]⟩
        | arr l => exact Or.inl ⟨errMsgOf (Json.arr l), by simp [branchActions, hp]⟩
        | obj fs => exact Or.inl ⟨errMsgOf (Json.obj fs), by simp [branchActions, hp]⟩
    | true =>
      cases hp : Json.parse bt with
      | none => exact Or.inl ⟨jsonSyntaxMsg, by simp [branchActions, hp]⟩
      | some d =>
        cases d with
        | obj fs =>
          cases hg : getField fs "ideas" with
          | none =>
            exact Or.inl ⟨invalidFormatMsg, by simp [branchActions, hp, getProp, hg]⟩
          | some v =>
            cases v with
            | arr l => exact Or.inr ⟨l, by simp [branchActions, hp, getProp, hg]⟩
            | null =>
              exact Or.inl ⟨invalidFormatMsg, by simp [branchActions, hp, getProp, hg]⟩
            | bool x =>
              exact Or.inl ⟨invalidFormatMsg, by simp [branchActions, hp, getProp, hg]⟩
            | num a e =>
              exact Or.inl ⟨invalidFormatMsg, by simp [branchActions, hp, getProp, hg]⟩
            | str s =>
              exact Or.inl ⟨invalidFormatMsg, by simp [branchActions, hp, getProp, hg]⟩
            | obj fs2 =>
              exact Or.inl ⟨invalidFormatMsg, by simp [branchActions, hp, getProp, hg]⟩
        | null => exact Or.inl ⟨nullAccessMsg, by simp [branchActions, hp]⟩
        | bool x => exact Or.inl ⟨invalidFormatMsg, by simp [branchActions, hp, getProp]⟩
        | num a e => exact Or.inl ⟨invalidFormatMsg, by simp [branchActions, hp, getProp]⟩
        | str s => exact Or.inl ⟨invalidFormatMsg, by simp [branchActions, hp, getProp]⟩
        | arr l => exact Or.inl ⟨invalidFormatMsg, by simp [branchActions, hp, getProp]⟩

/-- The trailing `finally` always leaves the loading flag cleared. -/
theorem applyActions_setLoading_last (st : UiState) (l : List CtrlAction) :
    (applyActions st (l ++ [CtrlAction.setLoading false])).isLoading = false := by
  unfold applyActions
  rw [List.foldl_append]
  rfl

/-- C8: every controller invocation first sets the loading flag and
clears the results; the loading flag is cleared at the end on every
path; every run either surfaces exactly one error toast with the
results left empty or stores the ideas with the fixed success toast;
and a non-ok response with a non-empty server `error` string surfaces
exactly that string. -/
theorem c8_controller_lifecycle (o : FetchOutcome) (st0 : UiState) :
    (handleGenerate o).take 2 =
      [CtrlAction.setLoading true, CtrlAction.setIdeas []] ∧
    (applyActions st0 (handleGenerate o)).isLoading = false ∧
    ((∃ m, toastsOf (handleGenerate o) = [Toast.err m] ∧
        (applyActions st0 (handleGenerate o)).ideas = []) ∨
     (∃ l, toastsOf (handleGenerate o) = [Toast.success successToastMsg] ∧
        branchActions o =
          [CtrlAction.setIdeas l, CtrlAction.toastSuccess successToastMsg])) ∧
    (∀ bt b s, o = FetchOutcome.response false bt → Json.parse bt = some b →
      getProp b "error" = some (Json.str s) → s ≠ "" →
      toastsOf (handleGenerate o) = [Toast.err s]) := by
  refine ⟨rfl, ?_, ?_, ?_⟩
  · show (applyActions st0 ([CtrlAction.setLoading true, CtrlAction.setIdeas []] ++
      branchActions o ++ [CtrlAction.setLoading false])).isLoading = false
    exact applyActions_setLoading_last st0 _
  · rcases branch_shape o with ⟨m, hm⟩ | ⟨l, hl⟩
    · refine Or.inl ⟨m, ?_, ?_⟩
      · simp [handleGenerate, hm, toastsOf]
      · simp [handleGenerate, hm, applyActions, applyAction]
    · refine Or.inr ⟨l, ?_, hl⟩
      simp [handleGenerate, hl, toastsOf]
  · intro bt b s ho hp hg hs
    subst ho
    cases b with
    | obj fs =>
      simp only [getProp] at hg
      have hbe : (s == "") = false := beq_eq_false_iff_ne.mpr hs
      simp [handleGenerate, branchActions, hp, toastsOf, errMsgOf, getProp, hg,
        falsyJson, jsDisplay, hbe]
    | null => simp [getProp] at hg
    | bool x => simp [getProp] at hg
    | num a e => simp [getProp] at hg
    | str s2 => simp [getProp] at hg
    | arr l => simp [getProp] at hg

/-- C8 witness: a non-ok response carrying `error: "boom"` surfaces the
server message. -/
theorem c8_controller_lifecycle_witness :
    toastsOf (handleGenerate
        (FetchOutcome.response false "\x7b\"error\":\"boom\"\x7d")) =
      [Toast.err "boom"] :=
  (c8_controller_lifecycle
      (FetchOutcome.response false "\x7b\"error\":\"boom\"\x7d") ⟨[], false⟩).2.2.2
    "\x7b\"error\":\"boom\"\x7d" (Json.obj [("error", Json.str "boom")]) "boom"
    rfl rfl rfl (by decide)

/-- C9: an HTTP 200 body with an empty `ideas` array counts as success:
the fixed success toast fires, the results stay empty, and the page
shows the invitational empty state instead of any result cards. -/
theorem c9_empty_ideas_success :
    Json.parse emptyIdeasText = some emptyIdeasBody ∧
    handleGenerate (FetchOutcome.response true emptyIdeasText) =
      [CtrlAction.setLoading true, CtrlAction.setIdeas [], CtrlAction.setIdeas [],
       CtrlAction.toastSuccess successToastMsg, CtrlAction.setLoading false] ∧
    successToastMsg = "3 amazing ideas generated!" ∧
    toastsOf (handleGenerate (FetchOutcome.response true emptyIdeasText)) =
      [Toast.success successToastMsg] ∧
    (applyActions ⟨[], false⟩
      (handleGenerate (FetchOutcome.response true emptyIdeasText))).ideas = [] ∧
    showEmptyState (applyActions ⟨[], false⟩
      (handleGenerate (FetchOutcome.response true emptyIdeasText))) = true ∧
    showResults (applyActions ⟨[], false⟩
      (handleGenerate (FetchOutcome.response true emptyIdeasText))) = false :=
  ⟨rfl, rfl, rfl, rfl, rfl, rfl, rfl⟩

/-- C10: the fence stripping deletes a triple-backtick run inside a
string value of an already-valid `ideas` reply, so the gateway answers
HTTP 200 with content that differs from what the model emitted. -/
theorem c10_fence_strip_corruption :
    Json.parse tickReply = some tickReplyVal ∧
    hasIdeasArr tickReplyVal = true ∧
    cleanContent tickReply = "\x7b\"ideas\":[\x7b\"architecture\":\"ab\"\x7d]\x7d" ∧
    runOk tickReply = ⟨⟨200, jsonHeaders, some tickReplyStripped⟩, true⟩ ∧
    tickReplyStripped ≠ tickReplyVal := by
  refine ⟨rfl, rfl, rfl, rfl, ?_⟩
  intro h
  simp only [tickReplyStripped, tickReplyVal, Json.obj.injEq, List.cons.injEq,
    Prod.mk.injEq, Json.arr.injEq, Json.str.injEq, and_true, true_and] at h
  exact absurd h (by decide)
